import Mathlib

/-!
Verification of the DataMatrix Scanner (main.py, storage_manager.py).

The Python source is shallowly embedded: pure image/number computations
become Lean functions (pixel values are `Nat`, OpenCV float scores are
`ℚ`), stateful code becomes explicit state passing over record types,
and external library primitives (OpenCV filters, the pylibdmtx decoder,
the file writer, the network probe) are parameters of the embedded
functions, so that every theorem holds for every behaviour of those
externals.
-/

namespace VideoCard

/-! ## Image model

A grayscale (or abstract) image: height, width and a pixel lookup.
The lookup is only meaningful at row `i < h`, column `j < w`;
`ImgEq` is equality of dimensions and of pixels inside that domain. -/

structure Img where
  h : Nat
  w : Nat
  pix : Nat → Nat → Nat

def ImgEq (a b : Img) : Prop :=
  a.h = b.h ∧ a.w = b.w ∧ ∀ i j, i < a.h → j < a.w → a.pix i j = b.pix i j

/-! ## rotate_image (main.py lines 864-879)

`cv2.rotate` with `ROTATE_90_CLOCKWISE`, `ROTATE_180`,
`ROTATE_90_COUNTERCLOCKWISE` are exact index permutations:
for an `h×w` source,
  clockwise 90:        dst(i,j) = src(h-1-j, i), dst is w×h;
  180:                 dst(i,j) = src(h-1-i, w-1-j);
  counterclockwise 90: dst(i,j) = src(j, w-1-i), dst is w×h.
The arbitrary-angle branch calls `cv2.warpAffine`, an external
interpolating primitive, kept as the parameter `warp`. -/

def rot90cw (image : Img) : Img :=
  ⟨image.w, image.h, fun i j => image.pix (image.h - 1 - j) i⟩

def rot180 (image : Img) : Img :=
  ⟨image.h, image.w, fun i j => image.pix (image.h - 1 - i) (image.w - 1 - j)⟩

def rot90ccw (image : Img) : Img :=
  ⟨image.w, image.h, fun i j => image.pix j (image.w - 1 - i)⟩

def rotate_image (warp : Nat → Img → Img) (angle : Nat) (image : Img) : Img :=
  if angle = 0 then image
  else if angle = 90 then rot90cw image
  else if angle = 180 then rot180 image
  else if angle = 270 then rot90ccw image
  else warp angle image

theorem rotate_image_zero (warp : Nat → Img → Img) (image : Img) :
    rotate_image warp 0 image = image := rfl

theorem rot180_rot180 (image : Img) : ImgEq (rot180 (rot180 image)) image := by
  refine ⟨rfl, rfl, fun i j hi hj => ?_⟩
  simp only [rot180] at hi hj ⊢
  congr 1 <;> omega

theorem rot90ccw_rot90cw (image : Img) : ImgEq (rot90ccw (rot90cw image)) image := by
  refine ⟨rfl, rfl, fun i j hi hj => ?_⟩
  simp only [rot90ccw, rot90cw] at hi hj ⊢
  congr 1
  omega

/-- C10: the 90-degree rotation helper satisfies the round-trip identities:
rotating by 0° is the identity, rotating by 180° twice returns the original
image, and rotating by 90° then by 270° returns the original image
(equality of dimensions and of every in-range pixel). -/
theorem c10_rotate_image_round_trips (warp : Nat → Img → Img) (image : Img) :
    rotate_image warp 0 image = image ∧
    ImgEq (rotate_image warp 180 (rotate_image warp 180 image)) image ∧
    ImgEq (rotate_image warp 270 (rotate_image warp 90 image)) image := by
  refine ⟨rfl, ?_, ?_⟩
  · simpa [rotate_image] using rot180_rot180 image
  · simpa [rotate_image] using rot90ccw_rot90cw image

theorem c10_rotate_image_witness :
    rotate_image (fun _ im => im) 0 ⟨2, 2, fun i j => 2 * i + j⟩
      = ⟨2, 2, fun i j => 2 * i + j⟩ ∧
    ImgEq (rotate_image (fun _ im => im) 180
        (rotate_image (fun _ im => im) 180 ⟨2, 2, fun i j => 2 * i + j⟩))
      ⟨2, 2, fun i j => 2 * i + j⟩ ∧
    ImgEq (rotate_image (fun _ im => im) 270
        (rotate_image (fun _ im => im) 90 ⟨2, 2, fun i j => 2 * i + j⟩))
      ⟨2, 2, fun i j => 2 * i + j⟩ :=
  c10_rotate_image_round_trips (fun _ im => im) ⟨2, 2, fun i j => 2 * i + j⟩

/-! ## StorageManager (storage_manager.py)

State of a `StorageManager` instance.  Directory paths are character
lists; times are `Nat` (the code compares `time.time()` differences
against the 60s interval; a clock that went backwards yields a negative
difference in Python, below the interval, which truncated `Nat`
subtraction reproduces).  The external effects are parameters:
`probe` is the outcome of the mount-existence/is-mount/write-test
sequence of `_check_network_availability` (lines 83-111), and
`writeOk` is whether `save_func` succeeds (returns truthy, no
exception) at a given file path. -/

structure StorageState where
  network_enabled : Bool
  mount_point : List Char
  fallback_dir : List Char
  network_available : Bool
  last_check_time : Nat
  check_interval : Nat
  consecutive_failures : Nat
  max_failures : Nat
deriving DecidableEq

/-- `_check_network_availability` (lines 68-116): cached for
`check_interval`; on a fresh successful probe it marks the network
available and resets the consecutive-failure counter; on a fresh
failed probe it marks the network unavailable. -/
def check_network_availability (now : Nat) (probe : Bool) (s : StorageState) :
    Bool × StorageState :=
  if now - s.last_check_time < s.check_interval then
    (s.network_available, s)
  else
    let s' := { s with last_check_time := now }
    if probe then
      (true, { s' with network_available := true, consecutive_failures := 0 })
    else
      (false, { s' with network_available := false })

/-- `get_storage_path` (lines 118-146): local when the network is
disabled; local when `consecutive_failures ≥ max_failures` (without
probing); otherwise resolve by the (cached) health check. -/
def get_storage_path (now : Nat) (probe : Bool) (s : StorageState) :
    (List Char × Bool) × StorageState :=
  if s.network_enabled = false then ((s.fallback_dir, false), s)
  else if s.max_failures ≤ s.consecutive_failures then ((s.fallback_dir, false), s)
  else
    match check_network_availability now probe s with
    | (true, s') => ((s'.mount_point, true), s')
    | (false, s') => ((s'.fallback_dir, false), s')

/-- `storage_path / filename` (pathlib `/` join). -/
def pathJoin (dir name : List Char) : List Char := dir ++ '/' :: name

/-- `save_file` (lines 148-208), instrumented with the ordered list of
file paths at which a write was attempted.  Primary write success
resets the failure counter; on failure at the network target the
counter is incremented and a single retry runs against the local
fallback; on failure at the local target the call fails directly.
Returns `((filepath, success), attempts)` and the new state; the empty
path stands for Python's `""` on failure. -/
def save_file (now : Nat) (probe : Bool) (filename : List Char)
    (writeOk : List Char → Bool) (s : StorageState) :
    ((List Char × Bool) × List (List Char)) × StorageState :=
  match get_storage_path now probe s with
  | ((storage_path, is_network), s1) =>
    let filepath := pathJoin storage_path filename
    if writeOk filepath then
      (((filepath, true), [filepath]), { s1 with consecutive_failures := 0 })
    else
      if is_network then
        let s2 := { s1 with consecutive_failures := s1.consecutive_failures + 1 }
        let fallback_filepath := pathJoin s2.fallback_dir filename
        if writeOk fallback_filepath then
          (((fallback_filepath, true), [filepath, fallback_filepath]), s2)
        else
          ((([], false), [filepath, fallback_filepath]), s2)
      else
        ((([], false), [filepath]), s1)

/-- `reset_failure_counter` (lines 306-310). -/
def reset_failure_counter (s : StorageState) : StorageState :=
  { s with consecutive_failures := 0, last_check_time := 0 }

/-- A manager state with the default configuration whose
consecutive-failure counter has reached the maximum (3). -/
def demotedState : StorageState :=
  { network_enabled := true
    mount_point := "/mnt/sharetest".toList
    fallback_dir := "images".toList
    network_available := false
    last_check_time := 0
    check_interval := 60
    consecutive_failures := 3
    max_failures := 3 }

/-- A manager state whose cached health says the network is available
and whose counter is 0. -/
def netOkState : StorageState :=
  { network_enabled := true
    mount_point := "/mnt/sharetest".toList
    fallback_dir := "images".toList
    network_available := true
    last_check_time := 100
    check_interval := 60
    consecutive_failures := 0
    max_failures := 3 }

/-- C2 is wrong about persistence: starting from the demoted state, a
single `save_file` whose write succeeds (an operation other than
`reset_failure_counter`) resets the counter to 0, after which
`get_storage_path` yields the network target again. -/
theorem c2_counterexample :
    demotedState.max_failures ≤ demotedState.consecutive_failures ∧
    (save_file 100 true "a.jpg".toList (fun _ => true) demotedState).2.consecutive_failures
      = 0 ∧
    ((get_storage_path 200 true
        ((save_file 100 true "a.jpg".toList (fun _ => true) demotedState).2)).1).2
      = true := by decide

/-- C2 (amended): whenever the consecutive-failure counter is at least
the configured maximum, `get_storage_path` returns the local fallback
directory with `is_network = false` regardless of the network health
probe, and leaves the state unchanged (so resolution alone never lifts
the demotion); the demotion lasts only until the counter is cleared,
which `reset_failure_counter` does explicitly but which a successful
`save_file` write also does. -/
theorem c2_demotion_regardless_of_probe (now : Nat) (probe : Bool) (s : StorageState)
    (h : s.max_failures ≤ s.consecutive_failures) :
    get_storage_path now probe s = ((s.fallback_dir, false), s) := by
  unfold get_storage_path
  cases hne : s.network_enabled <;> simp [hne, h]

theorem c2_demotion_witness :
    demotedState.max_failures ≤ demotedState.consecutive_failures ∧
    get_storage_path 100 true demotedState = ((demotedState.fallback_dir, false), demotedState) :=
  ⟨by decide, c2_demotion_regardless_of_probe 100 true demotedState (by decide)⟩

/-- C3: on writer failure at the resolved network target the counter is
incremented (relative to its post-resolution value) and exactly one
retry runs against the local fallback — the attempt trace is the
network path then the local path, the call succeeds iff the retry
succeeds, and an overall failure is reported only after the retry
fails; on writer failure at a resolved local target the call fails
directly with a single attempt and no counter change. -/
theorem c3_save_file_single_fallback (now : Nat) (probe : Bool) (filename : List Char)
    (writeOk : List Char → Bool) (s : StorageState) :
    (((get_storage_path now probe s).1).2 = true →
      writeOk (pathJoin (((get_storage_path now probe s).1).1) filename) = false →
      ((save_file now probe filename writeOk s).2.consecutive_failures
          = ((get_storage_path now probe s).2).consecutive_failures + 1 ∧
        ((save_file now probe filename writeOk s).1).2
          = [pathJoin (((get_storage_path now probe s).1).1) filename,
             pathJoin ((get_storage_path now probe s).2).fallback_dir filename] ∧
        (((save_file now probe filename writeOk s).1).1).2
          = writeOk (pathJoin ((get_storage_path now probe s).2).fallback_dir filename) ∧
        (writeOk (pathJoin ((get_storage_path now probe s).2).fallback_dir filename) = false →
          ((save_file now probe filename writeOk s).1).1 = ([], false)))) ∧
    (((get_storage_path now probe s).1).2 = false →
      writeOk (pathJoin (((get_storage_path now probe s).1).1) filename) = false →
      ((save_file now probe filename writeOk s).1 = (([], false),
          [pathJoin (((get_storage_path now probe s).1).1) filename]) ∧
        (save_file now probe filename writeOk s).2 = (get_storage_path now probe s).2)) := by
  rcases hr : get_storage_path now probe s with ⟨⟨path, isnet⟩, s1⟩
  constructor
  · intro hnet hfail
    subst hnet
    cases hw2 : writeOk (pathJoin s1.fallback_dir filename) <;>
      simp [save_file, hr, hfail, hw2]
  · intro hnet hfail
    subst hnet
    simp [save_file, hr, hfail]

theorem c3_witness :
    ((save_file 100 true "a.jpg".toList
        (fun p => decide (p = pathJoin "images".toList "a.jpg".toList)) netOkState).1).2
      = [pathJoin "/mnt/sharetest".toList "a.jpg".toList,
         pathJoin "images".toList "a.jpg".toList] ∧
    (save_file 100 true "a.jpg".toList
        (fun p => decide (p = pathJoin "images".toList "a.jpg".toList)) netOkState).2.consecutive_failures
      = 1 ∧
    (save_file 0 false "a.jpg".toList (fun _ => false)
        { netOkState with network_enabled := false }).1
      = (([], false), [pathJoin "images".toList "a.jpg".toList]) := by
  have h1 := (c3_save_file_single_fallback 100 true "a.jpg".toList
    (fun p => decide (p = pathJoin "images".toList "a.jpg".toList)) netOkState).1
    (by decide) (by decide)
  have h2 := (c3_save_file_single_fallback 0 false "a.jpg".toList (fun _ => false)
    { netOkState with network_enabled := false }).2 (by decide) (by decide)
  exact ⟨by rw [h1.2.1]; decide, by rw [h1.1]; decide, h2.1⟩

/-- C4 is wrong about the fallback case: when the network write fails
and the local fallback write succeeds, the call reports success at the
local path but the counter is left at the incremented value 1, not 0. -/
theorem c4_counterexample :
    (((save_file 100 true "a.jpg".toList
        (fun p => decide (p = pathJoin "images".toList "a.jpg".toList)) netOkState).1).1
      = (pathJoin "images".toList "a.jpg".toList, true)) ∧
    (save_file 100 true "a.jpg".toList
        (fun p => decide (p = pathJoin "images".toList "a.jpg".toList)) netOkState).2.consecutive_failures
      ≠ 0 := by decide

/-- C4 (amended): after a `save_file` whose primary write — at the
resolved target, network or local — succeeds, the counter equals 0;
when the local write succeeds only as the fallback after a network
write failure, the counter instead equals its post-resolution value
plus one. -/
theorem c4_counter_after_success (now : Nat) (probe : Bool) (filename : List Char)
    (writeOk : List Char → Bool) (s : StorageState) :
    (writeOk (pathJoin (((get_storage_path now probe s).1).1) filename) = true →
      (save_file now probe filename writeOk s).2.consecutive_failures = 0) ∧
    (((get_storage_path now probe s).1).2 = true →
      writeOk (pathJoin (((get_storage_path now probe s).1).1) filename) = false →
      writeOk (pathJoin ((get_storage_path now probe s).2).fallback_dir filename) = true →
      ((((save_file now probe filename writeOk s).1).1).2 = true ∧
        (save_file now probe filename writeOk s).2.consecutive_failures
          = ((get_storage_path now probe s).2).consecutive_failures + 1)) := by
  rcases hr : get_storage_path now probe s with ⟨⟨path, isnet⟩, s1⟩
  constructor
  · intro hok
    simp [save_file, hr, hok]
  · intro hnet hfail hfb
    subst hnet
    simp [save_file, hr, hfail, hfb]

theorem c4_counter_witness :
    (save_file 100 true "a.jpg".toList (fun _ => true) netOkState).2.consecutive_failures = 0 ∧
    ((((save_file 100 true "a.jpg".toList
        (fun p => decide (p = pathJoin "images".toList "a.jpg".toList)) netOkState).1).1).2 = true ∧
      (save_file 100 true "a.jpg".toList
        (fun p => decide (p = pathJoin "images".toList "a.jpg".toList)) netOkState).2.consecutive_failures
        = ((get_storage_path 100 true netOkState).2).consecutive_failures + 1) :=
  ⟨(c4_counter_after_success 100 true "a.jpg".toList (fun _ => true) netOkState).1 (by decide),
   (c4_counter_after_success 100 true "a.jpg".toList
      (fun p => decide (p = pathJoin "images".toList "a.jpg".toList)) netOkState).2
      (by decide) (by decide) (by decide)⟩

/-! ## EnhancedCameraManager capture sequences (main.py lines 412-638)

Device-state view of the three capture routines.  A `CamState` records
whether the Picamera2 device is started, which configuration it holds,
whether the background acquisition thread runs, and the `is_streaming`
flag.  Each routine's try-block is a list of state steps; a fault
injection `failAt = some k` makes the k-th step raise, after which the
routine's `except` handler runs.  Pure steps (serial signal, capture of
an array, enhancement, file write) are `id` on the device state but
remain fault points. -/

inductive CamConfig
  | preview
  | still
  | bracket (exposure : Nat)
deriving DecidableEq

structure CamState where
  started : Bool
  config : CamConfig
  bgRunning : Bool
  streaming : Bool
deriving DecidableEq

def camStop (s : CamState) : CamState := { s with started := false }

def camConfigure (c : CamConfig) (s : CamState) : CamState := { s with config := c }

def camStart (s : CamState) : CamState := { s with started := true }

def startBackgroundCapture (s : CamState) : CamState := { s with bgRunning := true }

def setStreaming (b : Bool) (s : CamState) : CamState := { s with streaming := b }

/-- Run the steps of a try-block in order; `failAt = some k` raises at
the k-th step (before it takes effect).  Returns the reached state and
whether the block completed without raising. -/
def runSteps : List (CamState → CamState) → Option Nat → CamState → CamState × Bool
  | [], _, s => (s, true)
  | _ :: _, some 0, s => (s, false)
  | f :: fs, some (k + 1), s => runSteps fs (some k) (f s)
  | f :: fs, none, s => runSteps fs none (f s)

/-- Try-block of `_capture_standard` (lines 449-488). -/
def standardBody (was_capturing : Bool) : List (CamState → CamState) :=
  [id,                                                -- send_serial_signal
   camStop,                                           -- picam2.stop()
   camConfigure CamConfig.still,                      -- configure(still_config)
   camStart,                                          -- picam2.start()
   id,                                                -- capture_array
   id,                                                -- enhance_image
   id,                                                -- imwrite
   camStop,
   camConfigure CamConfig.preview,
   camStart,
   if was_capturing then startBackgroundCapture else id,
   setStreaming true]

/-- Emergency path of `_capture_standard`'s except handler
(lines 492-499): stop, reconfigure for preview, restart, restart the
background loop if it was running, raise the streaming flag. -/
def emergency_restore (was_capturing : Bool) (s : CamState) : CamState :=
  setStreaming true
    ((if was_capturing then startBackgroundCapture else id)
      (camStart (camConfigure CamConfig.preview (camStop s))))

/-- `_capture_standard` (lines 437-504): suspend streaming, stop the
background thread, run the body; on a raise, emergency-restore and
re-raise (`false` = the exception propagates). -/
def capture_standard (failAt : Option Nat) (s : CamState) : CamState × Bool :=
  let s1 := setStreaming false s
  let was_capturing := s1.bgRunning
  let s2 := { s1 with bgRunning := false }
  match runSteps (standardBody was_capturing) failAt s2 with
  | (s3, true) => (s3, true)
  | (s3, false) => (emergency_restore was_capturing s3, false)

/-- Try-block of `_capture_multiple_shots` (lines 515-558); one `id`
step per shot for `capture_array`/scoring.  The routine never stops the
background thread. -/
def multipleShotsBody (shots : Nat) : List (CamState → CamState) :=
  [id,                                                -- send_serial_signal
   camStop,
   camConfigure CamConfig.still,
   camStart]
  ++ List.replicate shots id
  ++ [id,                                             -- imwrite of the best image
      camStop,
      camConfigure CamConfig.preview,
      camStart,
      setStreaming true]

/-- `_capture_multiple_shots` (lines 506-565): its except handler only
sets `is_streaming = True` and re-raises (lines 560-563). -/
def capture_multiple_shots (shots : Nat) (failAt : Option Nat) (s : CamState) :
    CamState × Bool :=
  let s1 := setStreaming false s
  match runSteps (multipleShotsBody shots) failAt s1 with
  | (s2, true) => (s2, true)
  | (s2, false) => (setStreaming true s2, false)

/-- Try-block of `_capture_bracketed_photos` (lines 576-631): per
exposure, stop/reconfigure/start then capture. -/
def bracketedBody (exposures : List Nat) : List (CamState → CamState) :=
  [id]
  ++ exposures.flatMap (fun e =>
      [camStop, camConfigure (CamConfig.bracket e), camStart, id])
  ++ [id,                                             -- imwrite of the best image
      camStop,
      camConfigure CamConfig.preview,
      camStart,
      setStreaming true]

/-- `_capture_bracketed_photos` (lines 567-638): fixed exposure list;
its except handler only sets `is_streaming = True` and re-raises
(lines 633-636). -/
def capture_bracketed_photos (failAt : Option Nat) (s : CamState) : CamState × Bool :=
  let s1 := setStreaming false s
  match runSteps (bracketedBody [8000, 10000, 12000, 15000]) failAt s1 with
  | (s2, true) => (s2, true)
  | (s2, false) => (setStreaming true s2, false)

inductive QualityMode
  | standard
  | haute
  | expert
deriving DecidableEq

/-- Mode dispatch of `capture_photo_enhanced` (lines 424-430);
`shots` is the quality config's `multiple_shots` value. -/
def capture_photo_enhanced (mode : QualityMode) (shots : Nat) (failAt : Option Nat)
    (s : CamState) : CamState × Bool :=
  match mode with
  | QualityMode.expert => capture_bracketed_photos failAt s
  | QualityMode.haute => capture_multiple_shots shots failAt s
  | QualityMode.standard => capture_standard failAt s

/-- C1 is wrong for the haute mode: a failure at the first shot (step 4
of the body, right after the device was reconfigured for still capture)
leaves the device configured for still capture — the handler re-raises
after setting only the streaming flag, with no stop/reconfigure/restart. -/
theorem c1_counterexample :
    (capture_photo_enhanced QualityMode.haute 3 (some 4)
        ⟨true, CamConfig.preview, true, true⟩).2 = false ∧
    (capture_photo_enhanced QualityMode.haute 3 (some 4)
        ⟨true, CamConfig.preview, true, true⟩).1.config = CamConfig.still := by decide

/-- C1 (amended): only the standard capture routine has the
emergency-restore path: for a failure at any step of its body it
returns the device to started + preview configuration, restores the
background loop to its prior state and raises the streaming flag before
re-raising.  The haute and expert routines restore only the streaming
flag before re-raising; in particular a failure at the first shot
leaves the device configured for still (resp. bracketed still) capture. -/
theorem c1_emergency_restore_only_standard :
    (∀ k s shots, k < (standardBody (setStreaming false s).bgRunning).length →
      capture_photo_enhanced QualityMode.standard shots (some k) s
        = (⟨true, CamConfig.preview, s.bgRunning, true⟩, false)) ∧
    (∀ shots s,
      (capture_photo_enhanced QualityMode.haute shots (some 4) s).1.config
          = CamConfig.still ∧
      (capture_photo_enhanced QualityMode.haute shots (some 4) s).1.streaming = true ∧
      (capture_photo_enhanced QualityMode.haute shots (some 4) s).2 = false) ∧
    (∀ shots s,
      (capture_photo_enhanced QualityMode.expert shots (some 4) s).1.config
          = CamConfig.bracket 8000 ∧
      (capture_photo_enhanced QualityMode.expert shots (some 4) s).1.streaming = true ∧
      (capture_photo_enhanced QualityMode.expert shots (some 4) s).2 = false) := by
  refine ⟨?_, ?_, ?_⟩
  · intro k s shots hk
    have hk' : k < 12 := by simpa [standardBody] using hk
    cases hbg : s.bgRunning <;> interval_cases k <;>
      simp [capture_photo_enhanced, capture_standard, standardBody, runSteps,
        emergency_restore, camStop, camConfigure, camStart, startBackgroundCapture,
        setStreaming, hbg]
  · intro shots s
    cases shots <;>
      simp [capture_photo_enhanced, capture_multiple_shots, multipleShotsBody, runSteps,
        camStop, camConfigure, camStart, setStreaming, List.replicate]
  · intro shots s
    simp [capture_photo_enhanced, capture_bracketed_photos, bracketedBody, runSteps,
      camStop, camConfigure, camStart, setStreaming, List.flatMap]

theorem c1_emergency_restore_witness :
    capture_photo_enhanced QualityMode.standard 1 (some 4)
        ⟨true, CamConfig.preview, true, true⟩
      = (⟨true, CamConfig.preview, true, true⟩, false) :=
  c1_emergency_restore_only_standard.1 4 ⟨true, CamConfig.preview, true, true⟩ 1 (by decide)

/-! ## Shot scoring and best-shot selection (main.py lines 392-410, 506-565)

Data-level view of `_capture_multiple_shots`: the external measures
`sharpness` (variance of the Laplacian) and `contrast` (standard
deviation of grayscale intensities) are parameters into ℚ; for a
uniform frame both are 0. -/

/-- `evaluate_image_quality` (lines 392-410):
score = sharpness × 0.7 + contrast × 0.3. -/
def evaluate_image_quality (sharpness contrast : Img → ℚ) (image : Img) : ℚ :=
  sharpness image * (7 / 10) + contrast image * (3 / 10)

/-- One iteration of the selection loop (lines 527-538): update on a
strictly greater score. -/
def bestShotStep (score : Img → ℚ) (acc : Option Img × ℚ) (frame : Img) :
    Option Img × ℚ :=
  if acc.2 < score frame then (some frame, score frame) else acc

/-- The whole selection loop, from `best_image = None`, `best_score = 0`
(lines 509-510). -/
def bestShotLoop (score : Img → ℚ) (frames : List Img) : Option Img × ℚ :=
  frames.foldl (bestShotStep score) (none, 0)

/-- Persistence decision (lines 540-548): the best image is
post-processed and written only when one was selected
(`if best_image is not None`). -/
def multiple_shots_persisted (score : Img → ℚ) (enhance : Img → Img)
    (frames : List Img) : Option Img :=
  (bestShotLoop score frames).1.map enhance

theorem bestShotStep_of_lt (score : Img → ℚ) (acc : Option Img × ℚ) (frame : Img)
    (h : acc.2 < score frame) : bestShotStep score acc frame = (some frame, score frame) := by
  simp [bestShotStep, h]

theorem bestShotStep_of_ge (score : Img → ℚ) (acc : Option Img × ℚ) (frame : Img)
    (h : ¬ acc.2 < score frame) : bestShotStep score acc frame = acc := by
  simp [bestShotStep, h]

theorem bestShotFold_invariant (score : Img → ℚ) (frames : List Img)
    (acc : Option Img × ℚ) :
    (∀ f ∈ frames, score f ≤ (frames.foldl (bestShotStep score) acc).2) ∧
    acc.2 ≤ (frames.foldl (bestShotStep score) acc).2 ∧
    (frames.foldl (bestShotStep score) acc = acc ∨
      ∃ g ∈ frames, (frames.foldl (bestShotStep score) acc).1 = some g ∧
        score g = (frames.foldl (bestShotStep score) acc).2) := by
  induction frames generalizing acc with
  | nil => simp
  | cons f fs ih =>
    simp only [List.foldl_cons, List.mem_cons]
    rcases ih (bestShotStep score acc f) with ⟨h1, h2, h3⟩
    by_cases hc : acc.2 < score f
    · rw [bestShotStep_of_lt score acc f hc] at h1 h2 h3 ⊢
      refine ⟨?_, ?_, ?_⟩
      · rintro g (rfl | hg)
        · exact h2
        · exact h1 g hg
      · exact le_trans (le_of_lt hc) h2
      · rcases h3 with h3 | ⟨g, hg, hg1, hg2⟩
        · exact Or.inr ⟨f, Or.inl rfl, by rw [h3], by rw [h3]⟩
        · exact Or.inr ⟨g, Or.inr hg, hg1, hg2⟩
    · rw [bestShotStep_of_ge score acc f hc] at h1 h2 h3 ⊢
      refine ⟨?_, h2, ?_⟩
      · rintro g (rfl | hg)
        · exact le_trans (le_of_not_lt hc) h2
        · exact h1 g hg
      · rcases h3 with h3 | ⟨g, hg, hg1, hg2⟩
        · exact Or.inl h3
        · exact Or.inr ⟨g, Or.inr hg, hg1, hg2⟩

/-- C7 is wrong when every shot scores 0 (e.g. a uniform frame, whose
Laplacian variance and intensity standard deviation are both 0): the
strict comparison against the initial best score 0 never selects an
image, so nothing at all is persisted even though a shot was taken. -/
theorem c7_counterexample :
    multiple_shots_persisted
        (evaluate_image_quality (fun _ => 0) (fun _ => 0)) (fun im => im)
        [⟨1, 1, fun _ _ => 128⟩] = none ∧
    evaluate_image_quality (fun _ => 0) (fun _ => 0) ⟨1, 1, fun _ _ => 128⟩ = 0 := by
  constructor
  · simp [multiple_shots_persisted, bestShotLoop, bestShotStep, evaluate_image_quality]
  · simp [evaluate_image_quality]

/-- C7 (amended): each shot's score is sharpness × 0.7 + contrast × 0.3;
the final best score is ≥ the score of every individual shot; and
provided at least one shot has a strictly positive score, the image
persisted is the post-processed copy of a shot attaining the best
score.  (When every shot scores ≤ 0 — e.g. all uniform frames — no
image is persisted at all.) -/
theorem c7_best_shot_selection (sharpness contrast : Img → ℚ) (enhance : Img → Img)
    (frames : List Img) :
    (∀ f ∈ frames, evaluate_image_quality sharpness contrast f
        ≤ (bestShotLoop (evaluate_image_quality sharpness contrast) frames).2) ∧
    ((∃ f ∈ frames, 0 < evaluate_image_quality sharpness contrast f) →
      ∃ g ∈ frames,
        (bestShotLoop (evaluate_image_quality sharpness contrast) frames).1 = some g ∧
        evaluate_image_quality sharpness contrast g
          = (bestShotLoop (evaluate_image_quality sharpness contrast) frames).2 ∧
        multiple_shots_persisted (evaluate_image_quality sharpness contrast) enhance frames
          = some (enhance g)) := by
  rcases bestShotFold_invariant (evaluate_image_quality sharpness contrast) frames (none, 0)
    with ⟨h1, _, h3⟩
  refine ⟨h1, ?_⟩
  rintro ⟨f, hf, hpos⟩
  rcases h3 with h3 | ⟨g, hg, hg1, hg2⟩
  · exfalso
    have hle := h1 f hf
    rw [h3] at hle
    exact absurd (lt_of_lt_of_le hpos hle) (lt_irrefl 0)
  · exact ⟨g, hg, hg1, hg2, by simp [multiple_shots_persisted, bestShotLoop, hg1]⟩

theorem c7_best_shot_witness :
    ∃ g ∈ [Img.mk 1 1 (fun _ _ => 10), Img.mk 1 1 (fun _ _ => 20)],
      (bestShotLoop
          (evaluate_image_quality (fun im => (im.pix 0 0 : ℚ)) (fun im => (im.pix 0 0 : ℚ)))
          [Img.mk 1 1 (fun _ _ => 10), Img.mk 1 1 (fun _ _ => 20)]).1 = some g ∧
      evaluate_image_quality (fun im => (im.pix 0 0 : ℚ)) (fun im => (im.pix 0 0 : ℚ)) g
        = (bestShotLoop
            (evaluate_image_quality (fun im => (im.pix 0 0 : ℚ)) (fun im => (im.pix 0 0 : ℚ)))
            [Img.mk 1 1 (fun _ _ => 10), Img.mk 1 1 (fun _ _ => 20)]).2 ∧
      multiple_shots_persisted
          (evaluate_image_quality (fun im => (im.pix 0 0 : ℚ)) (fun im => (im.pix 0 0 : ℚ)))
          (fun im => im)
          [Img.mk 1 1 (fun _ _ => 10), Img.mk 1 1 (fun _ _ => 20)] = some g :=
  (c7_best_shot_selection (fun im => (im.pix 0 0 : ℚ)) (fun im => (im.pix 0 0 : ℚ))
      (fun im => im)
      [Img.mk 1 1 (fun _ _ => 10), Img.mk 1 1 (fun _ _ => 20)]).2
    ⟨Img.mk 1 1 (fun _ _ => 10), by simp, by norm_num [evaluate_image_quality]⟩

/-! ## handle_capture_command (main.py lines 1166-1238)

Message-level view of the WebSocket capture handler.  The capture call
is a parameter `captureOutcome` (its exception text, or the photo
path); the inner decode block swallows its own exceptions, so its
outcome is the parameter `decodeResult`; `get_latest_images` likewise
catches internally and is the parameter `latest`.  Sends on the
channel are collected into the returned message list. -/

structure AppSettings where
  scan_mode : List Char
  detection_mode : List Char
  manual_of : List Char
deriving DecidableEq

inductive MsgKind
  | status
  | capture_result
  | error
deriving DecidableEq

structure WsMsg where
  kind : MsgKind
  text : List Char := []
  photo_path : Option (List Char) := none
  datamatrix : Option (List Char) := none
  latest_images : List (List Char) := []
deriving DecidableEq

/-- `Path(p).name`: the part of the path after the last `/`. -/
def baseName (p : List Char) : List Char :=
  (p.reverse.takeWhile (fun c => c ≠ '/')).reverse

def handle_capture_command (settings : AppSettings)
    (captureOutcome : Except (List Char) (List Char))
    (decodeResult : Option (List Char)) (latest : List (List Char)) : List WsMsg :=
  let status0 : WsMsg := { kind := MsgKind.status, text := "Capture en cours...".toList }
  match captureOutcome with
  | Except.error e =>
    [status0, { kind := MsgKind.error, text := "Erreur: ".toList ++ e }]
  | Except.ok photo_path =>
    let manual_of : Option (List Char) :=
      if settings.detection_mode = "manuel".toList ∧ settings.manual_of ≠ [] then
        some settings.manual_of
      else none
    let datamatrix_result : Option (List Char) :=
      if settings.scan_mode = "datamatrix".toList then decodeResult
      else if settings.scan_mode = "lot".toList then
        some (manual_of.getD "Mode Lot".toList)
      else none
    let final_text : List Char :=
      match datamatrix_result with
      | some r => "Code détecté: ".toList ++ r
      | none => "Capture terminée".toList
    [status0,
     { kind := MsgKind.capture_result,
       photo_path := some ("/images/".toList ++ baseName photo_path),
       datamatrix := datamatrix_result,
       latest_images := latest },
     { kind := MsgKind.status, text := final_text }]

/-- C5: for every capture command, whatever the capture outcome, the
handler sends exactly one terminal report: a `capture_result` message
(and no error) when the capture succeeded, an `error` message (and no
`capture_result`) when it raised. -/
theorem c5_exactly_one_terminal_report (settings : AppSettings)
    (captureOutcome : Except (List Char) (List Char))
    (decodeResult : Option (List Char)) (latest : List (List Char)) :
    (handle_capture_command settings captureOutcome decodeResult latest).countP
        (fun m => m.kind == MsgKind.capture_result || m.kind == MsgKind.error) = 1 ∧
    (match captureOutcome with
     | Except.ok _ =>
        (handle_capture_command settings captureOutcome decodeResult latest).countP
            (fun m => m.kind == MsgKind.capture_result) = 1 ∧
        (handle_capture_command settings captureOutcome decodeResult latest).countP
            (fun m => m.kind == MsgKind.error) = 0
     | Except.error _ =>
        (handle_capture_command settings captureOutcome decodeResult latest).countP
            (fun m => m.kind == MsgKind.error) = 1 ∧
        (handle_capture_command settings captureOutcome decodeResult latest).countP
            (fun m => m.kind == MsgKind.capture_result) = 0) := by
  cases captureOutcome <;>
    simp [handle_capture_command, List.countP_cons, List.countP_nil]

theorem c5_terminal_report_witness :
    (handle_capture_command ⟨"datamatrix".toList, "manuel".toList, []⟩
        (Except.ok "x.jpg".toList) (some "CODE".toList) []).countP
        (fun m => m.kind == MsgKind.capture_result || m.kind == MsgKind.error) = 1 ∧
    ((handle_capture_command ⟨"datamatrix".toList, "manuel".toList, []⟩
        (Except.ok "x.jpg".toList) (some "CODE".toList) []).countP
        (fun m => m.kind == MsgKind.capture_result) = 1 ∧
      (handle_capture_command ⟨"datamatrix".toList, "manuel".toList, []⟩
        (Except.ok "x.jpg".toList) (some "CODE".toList) []).countP
        (fun m => m.kind == MsgKind.error) = 0) :=
  c5_exactly_one_terminal_report ⟨"datamatrix".toList, "manuel".toList, []⟩
    (Except.ok "x.jpg".toList) (some "CODE".toList) []

/-! ## enhanced_decode_datamatrix (main.py lines 738-783)

The external OpenCV/pylibdmtx primitives are an environment: `imread`,
the four threshold operators, the decoder (`pylibdmtx.decode` with
`max_count=1` plus UTF-8 decoding; `none` covers both "no result" and
a raised-and-swallowed decode exception), `warpAffine`, and the
`preprocess_for_datamatrix` chain (CLAHE, Gaussian blur, sharpening
kernel — all library calls). -/

structure DecodeEnv where
  imread : List Char → Option Img
  otsuTh : Img → Img
  gaussTh : Img → Img
  meanTh : Img → Img
  fixedTh : Img → Img
  dmtxDecode : Img → Option (List Char)
  warp : Nat → Img → Img
  preprocess : Img → Img

/-- The `thresholds` list (lines 749-754), in source order. -/
def thresholds (env : DecodeEnv) : List (List Char × (Img → Img)) :=
  [("Otsu".toList, env.otsuTh),
   ("Adaptatif".toList, env.gaussTh),
   ("Adaptatif Mean".toList, env.meanTh),
   ("Seuil fixe 128".toList, env.fixedTh)]

/-- Inner rotation loop (lines 760-777): rotate (except at 0°), decode,
return on first success. -/
def tryRotations (env : DecodeEnv) (binary : Img) : List Nat → Option (List Char)
  | [] => none
  | angle :: rest =>
    let rotated := if angle ≠ 0 then rotate_image env.warp angle binary else binary
    match env.dmtxDecode rotated with
    | some r => some r
    | none => tryRotations env binary rest

/-- Outer strategy loop (lines 757-758): threshold once per strategy,
then sweep the rotations. -/
def tryThresholds (env : DecodeEnv) (processed : Img) :
    List (List Char × (Img → Img)) → Option (List Char)
  | [] => none
  | t :: rest =>
    let binary := t.2 processed
    match tryRotations env binary [0, 90, 180, 270] with
    | some r => some r
    | none => tryThresholds env processed rest

def enhanced_decode_datamatrix (env : DecodeEnv) (image_path : List Char) :
    Option (List Char) :=
  match env.imread image_path with
  | none => none
  | some image =>
    let processed := env.preprocess image
    tryThresholds env processed (thresholds env)

/-- The (strategy, rotation) pairs in attempt order: strategies outer,
rotations inner, 0° first. -/
def decodeAttempts (env : DecodeEnv) : List ((List Char × (Img → Img)) × Nat) :=
  (thresholds env).flatMap (fun t => [0, 90, 180, 270].map (fun a => (t, a)))

/-- The image a given attempt feeds to the decoder. -/
def attemptImage (env : DecodeEnv) (processed : Img)
    (p : (List Char × (Img → Img)) × Nat) : Img :=
  if p.2 ≠ 0 then rotate_image env.warp p.2 (p.1.2 processed) else p.1.2 processed

/-- The decoder outcome of a given attempt. -/
def attemptResult (env : DecodeEnv) (processed : Img)
    (p : (List Char × (Img → Img)) × Nat) : Option (List Char) :=
  env.dmtxDecode (attemptImage env processed p)

theorem rotate_image_lossless (warp : Nat → Img → Img) (binary : Img) (a : Nat)
    (ha : a = 0 ∨ a = 90 ∨ a = 180 ∨ a = 270) (i j : Nat)
    (hi : i < (rotate_image warp a binary).h) (hj : j < (rotate_image warp a binary).w) :
    ∃ u v, u < binary.h ∧ v < binary.w ∧
      (rotate_image warp a binary).pix i j = binary.pix u v := by
  rcases ha with rfl | rfl | rfl | rfl
  · exact ⟨i, j, hi, hj, rfl⟩
  · have hi' : i < binary.w := hi
    have hj' : j < binary.h := hj
    exact ⟨binary.h - 1 - j, i, by omega, hi', rfl⟩
  · have hi' : i < binary.h := hi
    have hj' : j < binary.w := hj
    exact ⟨binary.h - 1 - i, binary.w - 1 - j, by omega, by omega, rfl⟩
  · have hi' : i < binary.w := hi
    have hj' : j < binary.h := hj
    exact ⟨j, binary.w - 1 - i, hj', by omega, rfl⟩

theorem attempt_lossless (env : DecodeEnv) (processed : Img)
    (t : List Char × (Img → Img)) (a : Nat)
    (ha : a = 0 ∨ a = 90 ∨ a = 180 ∨ a = 270) (i j : Nat)
    (hi : i < (attemptImage env processed (t, a)).h)
    (hj : j < (attemptImage env processed (t, a)).w) :
    ∃ u v, u < (t.2 processed).h ∧ v < (t.2 processed).w ∧
      (attemptImage env processed (t, a)).pix i j = (t.2 processed).pix u v := by
  rcases ha with rfl | rfl | rfl | rfl
  · exact ⟨i, j, hi, hj, rfl⟩
  · exact rotate_image_lossless env.warp (t.2 processed) 90 (by decide) i j hi hj
  · exact rotate_image_lossless env.warp (t.2 processed) 180 (by decide) i j hi hj
  · exact rotate_image_lossless env.warp (t.2 processed) 270 (by decide) i j hi hj

theorem tryRotations_eq_findSome (env : DecodeEnv) (processed : Img)
    (t : List Char × (Img → Img)) (angles : List Nat) :
    tryRotations env (t.2 processed) angles
      = (angles.map (fun a => (t, a))).findSome? (attemptResult env processed) := by
  induction angles with
  | nil => rfl
  | cons a as ih =>
    simp only [tryRotations, List.map_cons, List.findSome?_cons]
    cases h : env.dmtxDecode
        (if a ≠ 0 then rotate_image env.warp a (t.2 processed) else t.2 processed) with
    | none =>
      have hsc : attemptResult env processed (t, a) = none := h
      rw [hsc]
      exact ih
    | some r =>
      have hsc : attemptResult env processed (t, a) = some r := h
      rw [hsc]

theorem tryThresholds_eq_findSome (env : DecodeEnv) (processed : Img)
    (ts : List (List Char × (Img → Img))) :
    tryThresholds env processed ts
      = (ts.flatMap (fun t => [0, 90, 180, 270].map (fun a => (t, a)))).findSome?
          (attemptResult env processed) := by
  induction ts with
  | nil => rfl
  | cons t ts ih =>
    simp only [tryThresholds, List.flatMap_cons, List.findSome?_append]
    rw [← tryRotations_eq_findSome env processed t [0, 90, 180, 270]]
    cases h : tryRotations env (t.2 processed) [0, 90, 180, 270] with
    | some r => simp [h]
    | none => simp [h, ih]

/-- C6: the direct decode attempt (a) equals the first success of the
decoder over the attempt list, so the payload of the first combination
that decodes is returned and later combinations are not consulted;
(b) the attempt list is exactly the Cartesian product of the four
threshold strategies (Otsu, Gaussian-adaptive, mean-adaptive, fixed
128) with the rotations 0°, 90°, 180°, 270°, strategies outer and 0°
first within each strategy; and (c) every attempt feeds the decoder an
exact lossless rotation of the thresholded image: each of its in-range
pixels is a pixel of that image (no interpolation). -/
theorem c6_decode_matrix (env : DecodeEnv) (image_path : List Char) (image : Img)
    (himg : env.imread image_path = some image) :
    (enhanced_decode_datamatrix env image_path
      = (decodeAttempts env).findSome? (attemptResult env (env.preprocess image))) ∧
    ((decodeAttempts env).map (fun p => (p.1.1, p.2))
      = [("Otsu".toList, 0), ("Otsu".toList, 90), ("Otsu".toList, 180), ("Otsu".toList, 270),
         ("Adaptatif".toList, 0), ("Adaptatif".toList, 90),
         ("Adaptatif".toList, 180), ("Adaptatif".toList, 270),
         ("Adaptatif Mean".toList, 0), ("Adaptatif Mean".toList, 90),
         ("Adaptatif Mean".toList, 180), ("Adaptatif Mean".toList, 270),
         ("Seuil fixe 128".toList, 0), ("Seuil fixe 128".toList, 90),
         ("Seuil fixe 128".toList, 180), ("Seuil fixe 128".toList, 270)]) ∧
    (∀ p ∈ decodeAttempts env, ∀ i j,
      i < (attemptImage env (env.preprocess image) p).h →
      j < (attemptImage env (env.preprocess image) p).w →
      ∃ u v, u < (p.1.2 (env.preprocess image)).h ∧ v < (p.1.2 (env.preprocess image)).w ∧
        (attemptImage env (env.preprocess image) p).pix i j
          = (p.1.2 (env.preprocess image)).pix u v) := by
  refine ⟨?_, rfl, ?_⟩
  · simp only [enhanced_decode_datamatrix, himg]
    exact tryThresholds_eq_findSome env (env.preprocess image) (thresholds env)
  · intro p hp i j hi hj
    simp only [decodeAttempts, thresholds, List.flatMap_cons, List.flatMap_nil,
      List.map_cons, List.map_nil, List.append_nil, List.mem_append, List.mem_cons,
      List.not_mem_nil, or_false] at hp
    rcases hp with (rfl | rfl | rfl | rfl) | (rfl | rfl | rfl | rfl) |
      (rfl | rfl | rfl | rfl) | (rfl | rfl | rfl | rfl) <;>
      exact attempt_lossless env (env.preprocess image) _ _ (by decide) i j hi hj

/-- A concrete decode environment over 1×1 images, for evaluating the
decode-matrix theorem. -/
def testDecodeEnv : DecodeEnv :=
  { imread := fun _ => some ⟨1, 1, fun _ _ => 1⟩
    otsuTh := fun im => im
    gaussTh := fun im => im
    meanTh := fun im => im
    fixedTh := fun im => im
    dmtxDecode := fun im => if im.pix 0 0 = 1 then some ['A'] else none
    warp := fun _ im => im
    preprocess := fun im => im }

theorem c6_decode_matrix_witness :
    (enhanced_decode_datamatrix testDecodeEnv []
      = (decodeAttempts testDecodeEnv).findSome?
          (attemptResult testDecodeEnv (testDecodeEnv.preprocess ⟨1, 1, fun _ _ => 1⟩))) ∧
    ((decodeAttempts testDecodeEnv).map (fun p => (p.1.1, p.2))
      = [("Otsu".toList, 0), ("Otsu".toList, 90), ("Otsu".toList, 180), ("Otsu".toList, 270),
         ("Adaptatif".toList, 0), ("Adaptatif".toList, 90),
         ("Adaptatif".toList, 180), ("Adaptatif".toList, 270),
         ("Adaptatif Mean".toList, 0), ("Adaptatif Mean".toList, 90),
         ("Adaptatif Mean".toList, 180), ("Adaptatif Mean".toList, 270),
         ("Seuil fixe 128".toList, 0), ("Seuil fixe 128".toList, 90),
         ("Seuil fixe 128".toList, 180), ("Seuil fixe 128".toList, 270)]) ∧
    (∀ p ∈ decodeAttempts testDecodeEnv, ∀ i j,
      i < (attemptImage testDecodeEnv (testDecodeEnv.preprocess ⟨1, 1, fun _ _ => 1⟩) p).h →
      j < (attemptImage testDecodeEnv (testDecodeEnv.preprocess ⟨1, 1, fun _ _ => 1⟩) p).w →
      ∃ u v, u < (p.1.2 (testDecodeEnv.preprocess ⟨1, 1, fun _ _ => 1⟩)).h ∧
        v < (p.1.2 (testDecodeEnv.preprocess ⟨1, 1, fun _ _ => 1⟩)).w ∧
        (attemptImage testDecodeEnv (testDecodeEnv.preprocess ⟨1, 1, fun _ _ => 1⟩) p).pix i j
          = (p.1.2 (testDecodeEnv.preprocess ⟨1, 1, fun _ _ => 1⟩)).pix u v) :=
  c6_decode_matrix testDecodeEnv [] ⟨1, 1, fun _ _ => 1⟩ rfl

/-! ## extract_white_label_enhanced (main.py lines 786-861)

The contour stage (morphology, `findContours`, candidate scoring,
`boundingRect` of the best contour, lines 790-842) is OpenCV-driven
and is the parameter `segment`, returning the bounding box
`(x, y, w, h)` of the selected candidate or `none`.  The post-crop
logic — margin, clamped crop, whiteness check — is the repository's own
arithmetic and is embedded exactly. -/

/-- Number of in-range pixels satisfying `p`. -/
def countPix (image : Img) (p : Nat → Bool) : Nat :=
  ((List.range image.h).map (fun i =>
    ((List.range image.w).filter (fun j => p (image.pix i j))).length)).sum

/-- `gray_image[y:y+h, x:x+w]`. -/
def cropImg (image : Img) (x y w h : Nat) : Img :=
  ⟨h, w, fun i j => image.pix (y + i) (x + j)⟩

/-- `margin = min(15, w//8, h//8)` (line 843). -/
def labelMargin (w0 h0 : Nat) : Nat := min 15 (min (w0 / 8) (h0 / 8))

/-- Margin-padded clamped crop box (lines 843-848):
`x = max(0, x-margin)`, `y = max(0, y-margin)` (truncated `Nat`
subtraction), `w = min(width-x, w+2*margin)`,
`h = min(height-y, h+2*margin)`. -/
def labelRect (gray_image : Img) (x0 y0 w0 h0 : Nat) : Nat × Nat × Nat × Nat :=
  let margin := labelMargin w0 h0
  let x := x0 - margin
  let y := y0 - margin
  (x, y, min (gray_image.w - x) (w0 + 2 * margin),
   min (gray_image.h - y) (h0 + 2 * margin))

/-- `extract_white_label_enhanced` (lines 786-861): crop the selected
candidate with margin, then reject it when fewer than 25% of its pixels
exceed brightness 200 (`np.sum(extracted_label > 200) / (w*h) < 0.25`,
lines 852-855); otherwise return the crop.  (When `w*h = 0` Python
raises `ZeroDivisionError`, caught by the outer handler which returns
`None`; the ℚ convention `c/0 = 0 < 1/4` yields `none` as well.) -/
def extract_white_label_enhanced (segment : Img → Option (Nat × Nat × Nat × Nat))
    (gray_image : Img) : Option Img :=
  match segment gray_image with
  | none => none
  | some (x0, y0, w0, h0) =>
    match labelRect gray_image x0 y0 w0 h0 with
    | (x, y, w, h) =>
      let extracted_label := cropImg gray_image x y w h
      if ((countPix extracted_label (fun v => 200 < v) : ℚ) / ((w * h : Nat) : ℚ)
          < 1 / 4) then
        none
      else
        some extracted_label

/-- A 90×90 grayscale image: a 4-pixel-thick square ring of brightness
230 (rows and columns in `[10,60)` minus the hole `[14,56)`) on a
uniform background of brightness 205. -/
def ringImg : Img :=
  ⟨90, 90, fun i j =>
    if 10 ≤ i ∧ i < 60 ∧ 10 ≤ j ∧ j < 60 ∧
        ¬(14 ≤ i ∧ i < 56 ∧ 14 ≤ j ∧ j < 56) then 230 else 205⟩

/-- The contour stage's output on `ringImg`.  Tracing the source on this
image: `cv2.threshold(..., 220, ...)` (line 790) keeps exactly the
230-valued ring (205 ≤ 220); the 3×3 close and open (lines 793-795)
leave the 4-px-thick ring intact; `findContours` with `RETR_EXTERNAL`
yields one contour, the ring's outer boundary, with
`contourArea ≈ 49·49 = 2401` — inside `[1500, 0.4·8100 = 3240]`
(line 811) — 4 approximated vertices (line 819), aspect ratio 1
(line 826); being the only candidate it is selected, and its
`boundingRect` is `(10, 10, 50, 50)` (line 842). -/
def segRing : Img → Option (Nat × Nat × Nat × Nat) := fun _ => some (10, 10, 50, 50)

set_option maxRecDepth 40000 in
/-- C8 is wrong about the cutoff: on `ringImg` the selected box
`(10,10,50,50)` is cropped with margin 6 to the 62×62 region
`[4,66)×[4,66)`, of which only the 736 ring pixels — about 19%, fewer
than 25% — exceed the 220 binarization cutoff; yet the region is
returned, because the whiteness check uses the distinct cutoff 200,
which every pixel (205 and 230 alike) exceeds. -/
theorem c8_counterexample :
    (extract_white_label_enhanced segRing ringImg).isSome = true ∧
    4 * countPix (cropImg ringImg 4 4 62 62) (fun v => 220 < v) < 62 * 62 := by
  have h1 : countPix (cropImg ringImg 4 4 62 62) (fun v => 200 < v) = 3844 := by decide
  have hnc : ¬ ((countPix (cropImg ringImg 4 4 62 62) (fun v => 200 < v) : ℚ)
      / ((62 * 62 : Nat) : ℚ) < 1 / 4) := by
    rw [h1]; norm_num
  have hunfold : extract_white_label_enhanced segRing ringImg
      = if ((countPix (cropImg ringImg 4 4 62 62) (fun v => 200 < v) : ℚ)
          / ((62 * 62 : Nat) : ℚ) < 1 / 4) then none
        else some (cropImg ringImg 4 4 62 62) := rfl
  have hval : extract_white_label_enhanced segRing ringImg
      = some (cropImg ringImg 4 4 62 62) := by
    rw [hunfold, if_neg hnc]
  refine ⟨by rw [hval]; rfl, by decide⟩

/-- C8 (amended): once segmentation has selected a candidate box, the
cropped region is rejected exactly when fewer than 25% of its pixels
exceed brightness 200 — a cutoff distinct from the 220 used for
binarization — and is returned otherwise. -/
theorem c8_whiteness_check (segment : Img → Option (Nat × Nat × Nat × Nat))
    (gray_image : Img) (x0 y0 w0 h0 x y w h : Nat)
    (hseg : segment gray_image = some (x0, y0, w0, h0))
    (hrect : labelRect gray_image x0 y0 w0 h0 = (x, y, w, h))
    (hw : 0 < w0) (hh : 0 < h0)
    (hxw : x0 + w0 ≤ gray_image.w) (hyh : y0 + h0 ≤ gray_image.h) :
    (extract_white_label_enhanced segment gray_image = none
      ↔ 4 * countPix (cropImg gray_image x y w h) (fun v => 200 < v) < w * h) ∧
    (¬ 4 * countPix (cropImg gray_image x y w h) (fun v => 200 < v) < w * h →
      extract_white_label_enhanced segment gray_image
        = some (cropImg gray_image x y w h)) := by
  simp only [labelRect, labelMargin, Prod.mk.injEq] at hrect
  obtain ⟨hx1, hy1, hw1, hh1⟩ := hrect
  subst hx1; subst hy1; subst hw1; subst hh1
  have hwpos : 0 < min (gray_image.w - (x0 - min 15 (min (w0 / 8) (h0 / 8))))
      (w0 + 2 * min 15 (min (w0 / 8) (h0 / 8))) := by omega
  have hhpos : 0 < min (gray_image.h - (y0 - min 15 (min (w0 / 8) (h0 / 8))))
      (h0 + 2 * min 15 (min (w0 / 8) (h0 / 8))) := by omega
  have hwh : 0 < (min (gray_image.w - (x0 - min 15 (min (w0 / 8) (h0 / 8))))
      (w0 + 2 * min 15 (min (w0 / 8) (h0 / 8))))
      * (min (gray_image.h - (y0 - min 15 (min (w0 / 8) (h0 / 8))))
      (h0 + 2 * min 15 (min (w0 / 8) (h0 / 8)))) := Nat.mul_pos hwpos hhpos
  set W := min (gray_image.w - (x0 - min 15 (min (w0 / 8) (h0 / 8))))
      (w0 + 2 * min 15 (min (w0 / 8) (h0 / 8))) with hWdef
  set H := min (gray_image.h - (y0 - min 15 (min (w0 / 8) (h0 / 8))))
      (h0 + 2 * min 15 (min (w0 / 8) (h0 / 8))) with hHdef
  set C := countPix (cropImg gray_image (x0 - min 15 (min (w0 / 8) (h0 / 8)))
      (y0 - min 15 (min (w0 / 8) (h0 / 8))) W H) (fun v => 200 < v) with hCdef
  have key : ((C : ℚ) / ((W * H : Nat) : ℚ) < 1 / 4) ↔ 4 * C < W * H := by
    rw [div_lt_div_iff₀ (by exact_mod_cast hwh) (by norm_num : (0 : ℚ) < 4), one_mul,
      mul_comm]
    exact_mod_cast Iff.rfl
  have hunfold : extract_white_label_enhanced segment gray_image
      = if ((C : ℚ) / ((W * H : Nat) : ℚ) < 1 / 4) then none
        else some (cropImg gray_image (x0 - min 15 (min (w0 / 8) (h0 / 8)))
          (y0 - min 15 (min (w0 / 8) (h0 / 8))) W H) := by
    simp only [extract_white_label_enhanced, hseg, labelRect, labelMargin, hWdef, hHdef,
      hCdef]
  by_cases hc : 4 * C < W * H
  · rw [hunfold, if_pos (key.mpr hc)]
    exact ⟨⟨fun _ => hc, fun _ => rfl⟩, fun hcontra => absurd hc hcontra⟩
  · rw [hunfold, if_neg (fun hcond => hc (key.mp hcond))]
    exact ⟨⟨fun hsome => Option.noConfusion hsome, fun h4 => absurd h4 hc⟩, fun _ => rfl⟩

theorem c8_whiteness_witness :
    (extract_white_label_enhanced segRing ringImg = none
      ↔ 4 * countPix (cropImg ringImg 4 4 62 62) (fun v => 200 < v) < 62 * 62) ∧
    (¬ 4 * countPix (cropImg ringImg 4 4 62 62) (fun v => 200 < v) < 62 * 62 →
      extract_white_label_enhanced segRing ringImg = some (cropImg ringImg 4 4 62 62)) :=
  c8_whiteness_check segRing ringImg 10 10 50 50 4 4 62 62 rfl (by decide) (by decide)
    (by decide) (by decide) (by decide)

/-! ## get_latest_images and debug artifact names
(main.py lines 936-945 and 766-768)

File names are character lists; a directory state is a list of
`FileEntry` (name and modification time).  `startsWithL`/`containsSub`
embed Python's prefix test and `in` on strings, `replaceAll` embeds
`str.replace` (left-to-right, non-overlapping), and `endsWithL` embeds
the `*.jpg` glob. -/

structure FileEntry where
  name : List Char
  mtime : Nat
deriving DecidableEq

def startsWithL : List Char → List Char → Bool
  | [], _ => true
  | _ :: _, [] => false
  | p :: ps, c :: cs => p == c && startsWithL ps cs

def containsSub (pat : List Char) : List Char → Bool
  | [] => startsWithL pat []
  | c :: cs => startsWithL pat (c :: cs) || containsSub pat cs

def endsWithL (suf s : List Char) : Bool := startsWithL suf.reverse s.reverse

/-- Python `s.replace(pat, rep)`: leftmost-first, non-overlapping. -/
def replaceAll (pat rep : List Char) : List Char → List Char
  | [] => []
  | c :: cs =>
    if h : pat ≠ [] ∧ startsWithL pat (c :: cs) = true then
      rep ++ replaceAll pat rep ((c :: cs).drop pat.length)
    else
      c :: replaceAll pat rep cs
termination_by s => s.length
decreasing_by
  · simp only [List.length_drop, List.length_cons]
    have : pat.length ≠ 0 := fun hlen => h.1 (List.length_eq_zero.mp hlen)
    omega
  · simp

/-- The marker every decode-pipeline debug artifact carries in its name. -/
def debugMarker : List Char := "_debug".toList

/-- `get_latest_images` (lines 936-945): glob `*.jpg`, drop names
containing `"_debug"`, sort by modification time descending, keep the
first `count`, and render as `/images/<name>`.  The sort is the
insertion sort below (the embedding's stand-in for Python's
`list.sort`). -/
def insertByMtime (f : FileEntry) : List FileEntry → List FileEntry
  | [] => [f]
  | g :: gs => if g.mtime ≤ f.mtime then f :: g :: gs else g :: insertByMtime f gs

def sortByMtimeDesc : List FileEntry → List FileEntry
  | [] => []
  | f :: fs => insertByMtime f (sortByMtimeDesc fs)

def get_latest_images (files : List FileEntry) (count : Nat) : List (List Char) :=
  let image_files := files.filter (fun f => endsWithL ".jpg".toList f.name)
  let image_files := image_files.filter (fun f => ! containsSub debugMarker f.name)
  let sorted := sortByMtimeDesc image_files
  (sorted.take count).map (fun f => "/images/".toList ++ f.name)

/-- Debug artifact path written by `enhanced_decode_datamatrix`
(line 767): `image_path.replace('.jpg', f'_debug_{name}_{angle}.jpg')`. -/
def debug_path (image_path threshold_name : List Char) (angle : Nat) : List Char :=
  replaceAll ".jpg".toList
    ("_debug_".toList ++ threshold_name ++ '_' :: (Nat.repr angle).toList
      ++ ".jpg".toList)
    image_path

theorem startsWithL_iff (p : List Char) : ∀ s,
    startsWithL p s = true ↔ ∃ t, s = p ++ t := by
  induction p with
  | nil => intro s; simp [startsWithL]
  | cons a ps ih =>
    intro s
    cases s with
    | nil => simp [startsWithL]
    | cons c cs =>
      simp only [startsWithL, Bool.and_eq_true, beq_iff_eq, ih, List.cons_append,
        List.cons.injEq]
      constructor
      · rintro ⟨rfl, t, rfl⟩
        exact ⟨t, rfl, rfl⟩
      · rintro ⟨t, rfl, rfl⟩
        exact ⟨rfl, t, rfl⟩

theorem containsSub_iff (p : List Char) : ∀ s,
    containsSub p s = true ↔ ∃ l r, s = l ++ p ++ r := by
  intro s
  induction s with
  | nil =>
    simp only [containsSub, startsWithL_iff]
    constructor
    · rintro ⟨t, ht⟩
      exact ⟨[], t, by simpa using ht⟩
    · rintro ⟨l, r, hlr⟩
      rcases List.append_eq_nil.mp (List.append_eq_nil.mp hlr.symm).1 with ⟨_, h2⟩
      exact ⟨r, by simp [h2, (List.append_eq_nil.mp hlr.symm).2]⟩
  | cons c cs ih =>
    simp only [containsSub, Bool.or_eq_true, startsWithL_iff, ih]
    constructor
    · rintro (⟨t, ht⟩ | ⟨l, r, rfl⟩)
      · exact ⟨[], t, by simpa using ht⟩
      · exact ⟨c :: l, r, by simp⟩
    · rintro ⟨l, r, hlr⟩
      cases l with
      | nil =>
        left
        exact ⟨r, by simpa using hlr⟩
      | cons d ds =>
        right
        rw [List.cons_append, List.cons_append, List.cons.injEq] at hlr
        exact ⟨ds, r, hlr.2⟩

theorem replaceAll_contains_rep (pat rep : List Char) (hpat : pat ≠ []) :
    ∀ s, containsSub pat s = true →
      ∃ l r, replaceAll pat rep s = l ++ rep ++ r := by
  intro s
  induction s with
  | nil =>
    intro hc
    simp only [containsSub, startsWithL_iff] at hc
    obtain ⟨t, ht⟩ := hc
    exact absurd (List.append_eq_nil.mp ht.symm).1 hpat
  | cons c cs ih =>
    intro hc
    by_cases hs : startsWithL pat (c :: cs) = true
    · refine ⟨[], replaceAll pat rep ((c :: cs).drop pat.length), ?_⟩
      rw [replaceAll, dif_pos ⟨hpat, hs⟩]
      simp
    · have hc' : containsSub pat cs = true := by
        simpa [containsSub, hs] using hc
      obtain ⟨l, r, hr⟩ := ih hc'
      refine ⟨c :: l, r, ?_⟩
      rw [replaceAll, dif_neg (fun hcontra => hs hcontra.2), hr]
      simp

/-- C9: (a) every name returned by `get_latest_images` comes from a
directory entry whose name does not contain the `"_debug"` marker — for
every directory state, no debug artifact is ever listed; (b) the decode
pipeline's debug artifacts always carry the marker: whenever the source
path contains `".jpg"`, the debug path derived from it contains
`"_debug"`. -/
theorem c9_latest_images_filter_debug :
    (∀ (files : List FileEntry) (count : Nat) (s : List Char),
      s ∈ get_latest_images files count →
      ∃ f, f ∈ files ∧ s = "/images/".toList ++ f.name ∧
        containsSub debugMarker f.name = false) ∧
    (∀ (image_path threshold_name : List Char) (angle : Nat),
      containsSub ".jpg".toList image_path = true →
      containsSub debugMarker (debug_path image_path threshold_name angle) = true) := by
  have hmemins : ∀ (x f : FileEntry) (l : List FileEntry),
      x ∈ insertByMtime f l → x = f ∨ x ∈ l := by
    intro x f l
    induction l with
    | nil => simp [insertByMtime]
    | cons g gs ih =>
      simp only [insertByMtime]
      by_cases hg : g.mtime ≤ f.mtime
      · rw [if_pos hg]
        intro hx
        simpa using hx
      · rw [if_neg hg]
        intro hx
        rcases List.mem_cons.mp hx with rfl | hx'
        · exact Or.inr (List.mem_cons_self _ _)
        · rcases ih hx' with rfl | h
          · exact Or.inl rfl
          · exact Or.inr (List.mem_cons_of_mem _ h)
  have hmemsort : ∀ (x : FileEntry) (l : List FileEntry),
      x ∈ sortByMtimeDesc l → x ∈ l := by
    intro x l
    induction l with
    | nil => simp [sortByMtimeDesc]
    | cons f fs ih =>
      intro hx
      rcases hmemins x f (sortByMtimeDesc fs) hx with rfl | h
      · exact List.mem_cons_self _ _
      · exact List.mem_cons_of_mem _ (ih h)
  constructor
  · intro files count s hs
    simp only [get_latest_images, List.mem_map] at hs
    obtain ⟨f, hf, rfl⟩ := hs
    have hf1 := hmemsort f _ (List.take_subset _ _ hf)
    rw [List.mem_filter] at hf1
    obtain ⟨hf2, hdeb⟩ := hf1
    rw [List.mem_filter] at hf2
    refine ⟨f, hf2.1, rfl, ?_⟩
    simpa using hdeb
  · intro image_path threshold_name angle hjpg
    obtain ⟨l, r, hlr⟩ :=
      replaceAll_contains_rep ".jpg".toList
        ("_debug_".toList ++ threshold_name ++ '_' :: (Nat.repr angle).toList
          ++ ".jpg".toList) (by decide) image_path hjpg
    have hdp : debug_path image_path threshold_name angle
        = l ++ ("_debug_".toList ++ threshold_name ++ '_' :: (Nat.repr angle).toList
            ++ ".jpg".toList) ++ r := hlr
    rw [containsSub_iff]
    refine ⟨l, ('_' :: threshold_name) ++ '_' :: (Nat.repr angle).toList
      ++ ".jpg".toList ++ r, ?_⟩
    rw [hdp, show "_debug_".toList = debugMarker ++ ['_'] from rfl]
    simp [List.append_assoc]

theorem c9_latest_images_witness :
    (∃ f, f ∈ [FileEntry.mk "a.jpg".toList 5, FileEntry.mk "a_debug_Otsu_90.jpg".toList 9] ∧
      "/images/a.jpg".toList = "/images/".toList ++ f.name ∧
      containsSub debugMarker f.name = false) ∧
    containsSub debugMarker (debug_path "a.jpg".toList "Otsu".toList 90) = true :=
  ⟨c9_latest_images_filter_debug.1
      [FileEntry.mk "a.jpg".toList 5, FileEntry.mk "a_debug_Otsu_90.jpg".toList 9] 3
      "/images/a.jpg".toList (by decide),
   c9_latest_images_filter_debug.2 "a.jpg".toList "Otsu".toList 90 (by decide)⟩

end VideoCard
